import Mathlib

/-
Verification of the fuzzy keyword-match engine of NIMAR-Automation
(src/NIMAR/search/elastic-search-advance-search-timeline.py,
`verify_keyword_in_media_cards` and its inner helpers `clean_text` and
`check_keyword_match`).

The embedding is a direct translation of the Python source:
* Python `str` values are Lean `String`s (the texts under test are ASCII;
  `str.lower`, the regex word class `\w` and the whitespace class `\s` are
  modelled on their ASCII behaviour, which coincides with Python on every
  input used here).
* Python floats (the word-match percentage, the threshold comparison) are
  modelled as exact rationals `ℚ`.
* The five fuzzywuzzy scorers (`fuzz.partial_ratio`, `fuzz.token_sort_ratio`,
  `fuzz.token_set_ratio`, `fuzz.WRatio`, `fuzz.ratio`) are third-party
  library calls, not code of this repository; they are abstracted as an
  arbitrary record of integer-valued functions (`Fuzz`).  Every theorem
  quantifies over that record, so the results hold for any backend.
* The regex substitutions of `clean_text` are implemented as left-to-right
  scanners with an explicit fuel argument (structural recursion, so that
  concrete instances evaluate by `decide`).
-/

namespace NIMAR

/-- Python regex word character `\w` (ASCII fragment): letters, digits, `_`. -/
def pyWordChar (c : Char) : Bool := c.isAlphanum || c == '_'

/-- Python whitespace class `\s` (ASCII fragment), also used by `str.strip`
and `str.split`. -/
def pyWs (c : Char) : Bool :=
  c == ' ' || c == '\t' || c == '\n' || c == '\r' || c == '\x0b' || c == '\x0c'

/-- Python `str.lower()` (ASCII fragment). -/
def pyLower (s : String) : String := ⟨s.data.map Char.toLower⟩

/-- Python `str.strip()` on a character list. -/
def pyStripList (l : List Char) : List Char :=
  ((l.dropWhile pyWs).reverse.dropWhile pyWs).reverse

/-- Python `str.strip()`. -/
def pyStrip (s : String) : String := ⟨pyStripList s.data⟩

/-- Worker for `str.split()` with no separator: accumulate the current word
(reversed) and emit it at each whitespace run. -/
def pySplitGo : List Char → List Char → List String
  | [], acc => if acc.isEmpty then [] else [⟨acc.reverse⟩]
  | c :: rest, acc =>
    if pyWs c then
      if acc.isEmpty then pySplitGo rest [] else ⟨acc.reverse⟩ :: pySplitGo rest []
    else
      pySplitGo rest (c :: acc)

/-- Python `str.split()` (no argument): split on whitespace runs, no empty
parts. -/
def pySplit (s : String) : List String := pySplitGo s.data []

/-- Python `needle in hay` substring test on character lists. -/
def listInfixB (needle hay : List Char) : Bool :=
  hay.tails.any (fun t => needle.isPrefixOf t)

/-- Python `needle in hay` substring test for strings. -/
def pySubstr (needle hay : String) : Bool := listInfixB needle.data hay.data

/-! ### The noise-removal passes of `clean_text`

`clean_text` runs, in order: one `re.sub(r'\b' + re.escape(w) + r'\b', '', t)`
per skip word `w`, then the duration pattern
`\b(\d{1,2}:\d{2}(?::\d{2})?)\b`, then the size pattern
`\b\d+(?:\.\d+)?\s?(?:kb|mb|gb)\b`, then whitespace collapsing and `strip`.
Each substitution deletes the non-overlapping matches found scanning left to
right.  All three patterns start and end on a word character, so the regex
word boundary `\b` holds at the start of a candidate match iff the previous
character of the original string is absent or not a word character, and at
the end iff the following character is absent or not a word character. -/

/-- Regex `\b` at the end of a match whose last character is a word
character: the remainder must be empty or start with a non-word character. -/
def boundaryAfter : List Char → Bool
  | [] => true
  | c :: _ => !pyWordChar c

/-- Regex `\b` before a match whose first character is a word character,
given the character immediately before the match position (`none` at the
start of the string). -/
def boundaryBefore : Option Char → Bool
  | none => true
  | some p => !pyWordChar p

/-- Scanner for `re.sub(r'\b' + w + r'\b', '', s)` where `w` is a literal
whose first and last characters are word characters (true of every skip
word).  `prev` is the character of the original string just before the
current position; `fuel` bounds the recursion (one unit per character
consumed, so `length + 1` always suffices). -/
def subWordGo (w : List Char) : Nat → Option Char → List Char → List Char
  | 0, _, s => s
  | _ + 1, _, [] => []
  | fuel + 1, prev, c :: rest =>
    if boundaryBefore prev && w.isPrefixOf (c :: rest)
        && boundaryAfter (List.drop w.length (c :: rest)) then
      subWordGo w fuel w.getLast? (List.drop w.length (c :: rest))
    else
      c :: subWordGo w fuel (some c) rest

/-- `re.sub` of one whole-word skip word, as in `clean_text`. -/
def subWord (w s : String) : String :=
  ⟨subWordGo w.data (s.data.length + 1) none s.data⟩

/-- Scanner companion of `subWordGo`: is there a boundary-delimited
occurrence of `w` from the current position on (given the same previous
character context)? -/
def occWordGo (w : List Char) : Nat → Option Char → List Char → Bool
  | 0, _, _ => false
  | _ + 1, _, [] => false
  | fuel + 1, prev, c :: rest =>
    (boundaryBefore prev && w.isPrefixOf (c :: rest)
        && boundaryAfter (List.drop w.length (c :: rest)))
    || occWordGo w fuel (some c) rest

/-- Whole-word occurrence test matching the scanning of `subWord`. -/
def hasWordOcc (w s : String) : Bool :=
  occWordGo w.data (s.data.length + 1) none s.data

/-- Consume exactly `n` digits, returning the remainder. -/
def takeDigits : Nat → List Char → Option (List Char)
  | 0, s => some s
  | _ + 1, [] => none
  | n + 1, c :: rest => if c.isDigit then takeDigits n rest else none

/-- After the mandatory `H:MM` part of the duration pattern has consumed
`base` characters and left `rest`, match the optional `(?::\d{2})?` followed
by the closing `\b`, preferring the longer alternative and backtracking to
the empty alternative exactly as the regex engine does. -/
def durTail (rest : List Char) (base : Nat) : Option Nat :=
  match rest with
  | ':' :: r2 =>
    match takeDigits 2 r2 with
    | some r3 =>
      if boundaryAfter r3 then some (base + 3)
      else if boundaryAfter rest then some base
      else none
    | none => if boundaryAfter rest then some base else none
  | _ => if boundaryAfter rest then some base else none

/-- Match the duration pattern `\d{1,2}:\d{2}(?::\d{2})?\b` at the head of
`s` (the leading `\b` is checked by the scanner), returning the number of
characters matched.  The greedy `\d{1,2}` tries two digits before one. -/
def matchDur (s : List Char) : Option Nat :=
  let try2 : Option Nat :=
    match takeDigits 2 s with
    | some (':' :: r2) =>
      match takeDigits 2 r2 with
      | some r3 => durTail r3 5
      | none => none
    | _ => none
  match try2 with
  | some n => some n
  | none =>
    match takeDigits 1 s with
    | some (':' :: r2) =>
      match takeDigits 2 r2 with
      | some r3 => durTail r3 4
      | none => none
    | _ => none

/-- Scanner for the duration substitution
`re.sub(r"\b(\d{1,2}:\d{2}(?::\d{2})?)\b", "", s)`. -/
def subDurGo : Nat → Option Char → List Char → List Char
  | 0, _, s => s
  | _ + 1, _, [] => []
  | fuel + 1, prev, c :: rest =>
    if boundaryBefore prev then
      match matchDur (c :: rest) with
      | some n => subDurGo fuel (List.take n (c :: rest)).getLast? (List.drop n (c :: rest))
      | none => c :: subDurGo fuel (some c) rest
    else
      c :: subDurGo fuel (some c) rest

/-- The duration substitution of `clean_text`. -/
def subDur (s : String) : String := ⟨subDurGo (s.data.length + 1) none s.data⟩

/-- Consume a maximal run of digits, returning its length and the
remainder. -/
def digitRun : List Char → Nat × List Char
  | [] => (0, [])
  | c :: rest =>
    if c.isDigit then
      let (n, r) := digitRun rest
      (n + 1, r)
    else
      (0, c :: rest)

/-- Match `kb`, `mb` or `gb` at the head of `s` (the input is already
lowercased), returning the remainder. -/
def matchUnit : List Char → Option (List Char)
  | c :: 'b' :: r => if c == 'k' || c == 'm' || c == 'g' then some r else none
  | _ => none

/-- Match the size pattern `\d+(?:\.\d+)?\s?(?:kb|mb|gb)\b` at the head of
`s` (the leading `\b` is checked by the scanner), returning the number of
characters matched.  Both `\d+` groups are effectively greedy-only: a digit
can never match the character class that follows them, so the regex engine
never benefits from backtracking them; `\s?` backtracks from present to
absent, but a whitespace character can never start a unit, so only the
successful alternative is reachable. -/
def matchSize (s : List Char) : Option Nat :=
  let (d, r1) := digitRun s
  if d = 0 then none
  else
    let fr : Nat × List Char :=
      match r1 with
      | '.' :: r =>
        let (d2, rr) := digitRun r
        if d2 = 0 then (0, r1) else (d2 + 1, rr)
      | _ => (0, r1)
    let f := fr.1
    let r2 := fr.2
    match r2 with
    | c :: r3 =>
      if pyWs c then
        match matchUnit r3 with
        | some r4 => if boundaryAfter r4 then some (d + f + 1 + 2) else none
        | none => none
      else
        match matchUnit r2 with
        | some r4 => if boundaryAfter r4 then some (d + f + 2) else none
        | none => none
    | [] => none

/-- Scanner for the size substitution
`re.sub(r"\b\d+(?:\.\d+)?\s?(?:kb|mb|gb)\b", "", s)`. -/
def subSizeGo : Nat → Option Char → List Char → List Char
  | 0, _, s => s
  | _ + 1, _, [] => []
  | fuel + 1, prev, c :: rest =>
    if boundaryBefore prev then
      match matchSize (c :: rest) with
      | some n => subSizeGo fuel (List.take n (c :: rest)).getLast? (List.drop n (c :: rest))
      | none => c :: subSizeGo fuel (some c) rest
    else
      c :: subSizeGo fuel (some c) rest

/-- The size substitution of `clean_text`. -/
def subSize (s : String) : String := ⟨subSizeGo (s.data.length + 1) none s.data⟩

/-- Worker for `re.sub(r"\s+", " ", s)`: each maximal whitespace run becomes
a single space.  The flag records whether we are inside a run already
replaced. -/
def collapseWsGo : Bool → List Char → List Char
  | _, [] => []
  | inRun, c :: rest =>
    if pyWs c then
      if inRun then collapseWsGo true rest else ' ' :: collapseWsGo true rest
    else
      c :: collapseWsGo false rest

/-- `re.sub(r"\s+", " ", s)`. -/
def collapseWs (s : String) : String := ⟨collapseWsGo false s.data⟩

/-- The `skip_words` list of `verify_keyword_in_media_cards` (source order). -/
def skip_words : List String :=
  ["see details", "mp4", "pdf", "xls", "zip", "mov", "mkv", "jpg", "png",
   "avif", "svg", "tif"]

/-- The inner helper `clean_text(text)` of `verify_keyword_in_media_cards`:
lowercase, remove each skip word as a whole word, remove durations, remove
file sizes, normalize whitespace, strip. -/
def clean_text (text : String) : String :=
  if text = "" then ""
  else
    let t1 := pyLower text
    let t2 := skip_words.foldl (fun acc w => subWord w acc) t1
    let t3 := subDur t2
    let t4 := subSize t3
    pyStrip (collapseWs t4)

/-! ### The match scorer `check_keyword_match` -/

/-- The five fuzzywuzzy scorers used by `check_keyword_match`.  They are
third-party library functions (`from fuzzywuzzy import fuzz`), not code of
this repository, so they are kept abstract; fuzzywuzzy returns integers in
`[0, 100]`, modelled as `Nat`.  Field names follow the library:
`part_ratio` is `fuzz.partial_ratio`, `wratio` is `fuzz.WRatio` (the code
guards the `WRatio` call with `hasattr` and falls back to `0`; the installed
library has it, and abstractness covers either choice). -/
structure Fuzz where
  part_ratio : String → String → Nat
  token_sort_ratio : String → String → Nat
  token_set_ratio : String → String → Nat
  wratio : String → String → Nat
  ratio : String → String → Nat

/-- The result triple `(is_match, best_score, method)` returned by
`check_keyword_match`.  Scores are rationals because the
partial-words branch returns the Python float
`(words_found / len(keyword_words)) * 100`. -/
structure MatchResult where
  is_match : Bool
  best_score : ℚ
  method : Option String
deriving DecidableEq

/-- Strategies 3–7 of `check_keyword_match` (the fall-through after the
substring and word-count strategies): compute the five fuzzywuzzy scores,
take their maximum, attribute the method by the source's `if`/`elif`
cascade, and decide the match by the five-rule priority chain. -/
def fuzzy_strategies (fz : Fuzz) (keyword_clean metadata_clean : String)
    (threshold : ℚ) : MatchResult :=
  let p_score := fz.part_ratio keyword_clean metadata_clean
  let tsort_score := fz.token_sort_ratio keyword_clean metadata_clean
  let tset_score := fz.token_set_ratio keyword_clean metadata_clean
  let wr_score := fz.wratio keyword_clean metadata_clean
  let ratio_score := fz.ratio keyword_clean metadata_clean
  let best_score := max p_score (max tsort_score (max tset_score (max wr_score ratio_score)))
  let method : String :=
    if best_score = p_score then "partial_ratio"
    else if best_score = tsort_score then "token_sort_ratio"
    else if best_score = tset_score then "token_set_ratio"
    else if best_score = wr_score then "WRatio"
    else "ratio"
  let is_match : Bool :=
    if 50 ≤ p_score then true
    else if 60 ≤ tsort_score ∨ 60 ≤ tset_score then true
    else if threshold ≤ (best_score : ℚ) then true
    else if 60 ≤ wr_score then true
    else if 50 ≤ best_score then true
    else false
  ⟨is_match, (best_score : ℚ), some method⟩

/-- The inner helper `check_keyword_match(keyword, metadata_text, threshold)`
of `verify_keyword_in_media_cards`, translated clause by clause:
empty-text guards, the exact-substring strategy, the multi-word strategies,
then the fuzzy fall-through `fuzzy_strategies`. -/
def check_keyword_match (fz : Fuzz) (keyword metadata_text : String)
    (threshold : ℚ) : MatchResult :=
  if metadata_text = "" then ⟨false, 0, none⟩
  else
    let keyword_clean := pyStrip (pyLower keyword)
    let metadata_clean := clean_text metadata_text
    if metadata_clean = "" then ⟨false, 0, none⟩
    else if pySubstr keyword_clean metadata_clean then ⟨true, 100, some "exact_match"⟩
    else
      let keyword_words := pySplit keyword_clean
      if 1 < keyword_words.length then
        let words_found := (keyword_words.filter (fun w => pySubstr w metadata_clean)).length
        if words_found = keyword_words.length then ⟨true, 95, some "all_words_match"⟩
        else
          let word_match_percentage : ℚ := ((words_found : ℚ) / (keyword_words.length : ℚ)) * 100
          if 0 < words_found ∧ 70 ≤ word_match_percentage then
            ⟨true, word_match_percentage, some "partial_words_match"⟩
          else
            fuzzy_strategies fz keyword_clean metadata_clean threshold
      else
        fuzzy_strategies fz keyword_clean metadata_clean threshold

/-! ### The verification aggregator -/

/-- The metadata dictionary harvested from one result card (the extraction
itself is DOM-bound and out of scope; the aggregator consumes only these
seven text fields, in this order). -/
structure CardMetadata where
  title : String
  description : String
  keywords : String
  alt_text : String
  aria_label : String
  data_attributes : String
  all_text : String

/-- `combined_metadata = " ".join([f for f in all_metadata_fields if f]).strip()`. -/
def combined_metadata (m : CardMetadata) : String :=
  pyStrip (String.intercalate " "
    (([m.title, m.description, m.keywords, m.alt_text, m.aria_label,
       m.data_attributes, m.all_text]).filter (fun f => f ≠ "")))

/-- The aggregate outcome of one `verify_keyword_in_media_cards` run: the
returned `(matched, total, mismatch_details)` (mismatches kept as the card
numbers recorded) together with the `match_percentage` the summary
computes. -/
structure VerifySummary where
  matched : Nat
  total : Nat
  mismatch_cards : List Nat
  match_percentage : ℚ
deriving DecidableEq

/-- The scoring loop and summary of `verify_keyword_in_media_cards`
(`deep_check=False`), over the metadata of the visible cards: only the
first 150 cards are inspected; each card increments `total`; a card with
empty combined metadata is recorded as a mismatch (reason "No metadata
found") without scoring; otherwise `check_keyword_match` decides matched
versus mismatch.  `match_percentage = (matched / total * 100) if total > 0
else 0`. -/
def verify_core (fz : Fuzz) (keyword : String) (threshold : ℚ)
    (cards : List CardMetadata) : VerifySummary :=
  let visible_cards := cards.take 150
  let step : Nat × Nat × List Nat → CardMetadata → Nat × Nat × List Nat :=
    fun st m =>
      let matched := st.1
      let total := st.2.1 + 1
      let mms := st.2.2
      let cm := combined_metadata m
      if cm = "" then (matched, total, mms ++ [total])
      else if (check_keyword_match fz keyword cm threshold).is_match then
        (matched + 1, total, mms)
      else
        (matched, total, mms ++ [total])
  let r := visible_cards.foldl step (0, 0, [])
  let match_percentage : ℚ :=
    if 0 < r.2.1 then (r.1 : ℚ) / (r.2.1 : ℚ) * 100 else 0
  ⟨r.1, r.2.1, r.2.2, match_percentage⟩

/-! ### Analysis helpers

Named versions of the intermediate values of `check_keyword_match`, used to
state theorems about the stages of the scorer. -/

/-- The cleaned keyword `keyword.lower().strip()`. -/
def keyword_clean_of (keyword : String) : String := pyStrip (pyLower keyword)

/-- `keyword_words = keyword_clean.split()`. -/
def keyword_words_of (keyword : String) : List String :=
  pySplit (keyword_clean_of keyword)

/-- `words_found`: how many keyword words occur in the cleaned metadata. -/
def words_found_of (keyword text : String) : Nat :=
  ((keyword_words_of keyword).filter (fun w => pySubstr w (clean_text text))).length

/-- `word_match_percentage = (words_found / len(keyword_words)) * 100`. -/
def word_pct_of (keyword text : String) : ℚ :=
  ((words_found_of keyword text : ℚ) / (((keyword_words_of keyword).length : ℚ))) * 100

/-- The keyword/text pair falls through to the fuzzy strategies: the text
and its cleaned form are non-empty, the cleaned keyword is not a substring
of the cleaned text, and the multi-word strategy (when it applies) neither
finds all the words nor reaches the 70 percent partial-words bar. -/
def fuzzy_stage_reached (keyword text : String) : Prop :=
  text ≠ "" ∧ clean_text text ≠ "" ∧
  pySubstr (keyword_clean_of keyword) (clean_text text) = false ∧
  (1 < (keyword_words_of keyword).length →
    words_found_of keyword text ≠ (keyword_words_of keyword).length ∧
    ¬(0 < words_found_of keyword text ∧ 70 ≤ word_pct_of keyword text))

instance (keyword text : String) : Decidable (fuzzy_stage_reached keyword text) := by
  unfold fuzzy_stage_reached
  infer_instance

/-- The five strategy scores of one keyword/text pair, as a record (the
spec's view of step 3). -/
structure StrategyScores where
  p_r : Nat
  tso : Nat
  tse : Nat
  wr : Nat
  r : Nat

/-- The scores the scorer computes for a keyword/text pair: each fuzzywuzzy
strategy applied to the cleaned keyword and the cleaned metadata text. -/
def scores_of (fz : Fuzz) (keyword text : String) : StrategyScores :=
  ⟨fz.part_ratio (keyword_clean_of keyword) (clean_text text),
   fz.token_sort_ratio (keyword_clean_of keyword) (clean_text text),
   fz.token_set_ratio (keyword_clean_of keyword) (clean_text text),
   fz.wratio (keyword_clean_of keyword) (clean_text text),
   fz.ratio (keyword_clean_of keyword) (clean_text text)⟩

/-! ### Spec-side formulation of the step-3 contract

These definitions follow the words of the specification (its "Match
decision" chain and its `bestScore`/`method` invariant), to be compared
with the source-side `fuzzy_strategies`. -/

/-- Spec: `bestScore = max` of the five strategy scores. -/
def specBestScore (s : StrategyScores) : Nat :=
  [s.p_r, s.tso, s.tse, s.wr, s.r].foldl max 0

/-- Spec: `method` is attributed to whichever strategy produced the maximum,
ties resolved by the listed order partial_ratio, token_sort_ratio,
token_set_ratio, WRatio, ratio. -/
def specAttribution (s : StrategyScores) : Option String :=
  (([(s.p_r, "partial_ratio"), (s.tso, "token_sort_ratio"),
     (s.tse, "token_set_ratio"), (s.wr, "WRatio"),
     (s.r, "ratio")]).find? (fun x => x.1 = specBestScore s)).map Prod.snd

/-- Spec: the match decision of step 3, the disjunction of the five rules
(a) partial_ratio ≥ 50, (b) token_sort_ratio ≥ 60 or token_set_ratio ≥ 60,
(c) bestScore ≥ threshold, (d) weighted_ratio ≥ 60, (e) bestScore ≥ 50;
otherwise no match.  Every rule returns "match", so "first true wins" has
the same value as the disjunction. -/
def specDecision (s : StrategyScores) (threshold : ℚ) : Bool :=
  decide (50 ≤ s.p_r) || decide (60 ≤ s.tso ∨ 60 ≤ s.tse) ||
  decide (threshold ≤ (specBestScore s : ℚ)) || decide (60 ≤ s.wr) ||
  decide (50 ≤ specBestScore s)

/-- Clamping a threshold into `[0, 100]` (the spec's error-handling rule for
out-of-range thresholds). -/
def clampThreshold (t : ℚ) : ℚ := min 100 (max 0 t)

/-! ### Concrete fuzzywuzzy backends for witnesses and counterexamples

The abstract `Fuzz` record is instantiated with constant backends where a
concrete evaluation is needed; at every such input the branch taken by
`check_keyword_match` is settled before or independently of the fuzzy
scores, or the scores are fixed by the constant. -/

/-- A backend on which every strategy scores 0. -/
def fzZero : Fuzz :=
  ⟨fun _ _ => 0, fun _ _ => 0, fun _ _ => 0, fun _ _ => 0, fun _ _ => 0⟩

/-- A backend on which every strategy scores 40. -/
def fzConst40 : Fuzz :=
  ⟨fun _ _ => 40, fun _ _ => 40, fun _ _ => 40, fun _ _ => 40, fun _ _ => 40⟩




lemma specBestScore_eq (a b c d e : Nat) :
    specBestScore ⟨a, b, c, d, e⟩ = max a (max b (max c (max d e))) := by
  simp only [specBestScore, List.foldl]
  omega

lemma decision_eq (a b c d e : Nat) (θ : ℚ) :
    (if 50 ≤ a then true
     else if 60 ≤ b ∨ 60 ≤ c then true
     else if θ ≤ ((max a (max b (max c (max d e))) : Nat) : ℚ) then true
     else if 60 ≤ d then true
     else if 50 ≤ max a (max b (max c (max d e))) then true
     else false)
    = specDecision ⟨a, b, c, d, e⟩ θ := by
  simp only [specDecision, specBestScore_eq]
  split_ifs with h1 h2 h3 h4 h5 <;>
    first
      | (symm; simp only [Bool.or_eq_true, decide_eq_true_eq]; tauto)
      | (symm; simp only [Bool.or_eq_false_iff, decide_eq_false_iff_not]; tauto)

lemma attribution_eq (a b c d e : Nat) :
    (some (if max a (max b (max c (max d e))) = a then "partial_ratio"
     else if max a (max b (max c (max d e))) = b then "token_sort_ratio"
     else if max a (max b (max c (max d e))) = c then "token_set_ratio"
     else if max a (max b (max c (max d e))) = d then "WRatio"
     else "ratio") : Option String)
    = specAttribution ⟨a, b, c, d, e⟩ := by
  have hM := specBestScore_eq a b c d e
  simp only [specAttribution, hM]
  by_cases ha : a = max a (max b (max c (max d e)))
  · rw [List.find?_cons_of_pos _ (by simp only [decide_eq_true_eq]; exact ha), if_pos ha.symm]
    rfl
  · rw [List.find?_cons_of_neg _ (by simp only [decide_eq_true_eq]; exact ha),
      if_neg (fun h => ha h.symm)]
    by_cases hb : b = max a (max b (max c (max d e)))
    · rw [List.find?_cons_of_pos _ (by simp only [decide_eq_true_eq]; exact hb), if_pos hb.symm]
      rfl
    · rw [List.find?_cons_of_neg _ (by simp only [decide_eq_true_eq]; exact hb),
        if_neg (fun h => hb h.symm)]
      by_cases hc : c = max a (max b (max c (max d e)))
      · rw [List.find?_cons_of_pos _ (by simp only [decide_eq_true_eq]; exact hc), if_pos hc.symm]
        rfl
      · rw [List.find?_cons_of_neg _ (by simp only [decide_eq_true_eq]; exact hc),
          if_neg (fun h => hc h.symm)]
        by_cases hd : d = max a (max b (max c (max d e)))
        · rw [List.find?_cons_of_pos _ (by simp only [decide_eq_true_eq]; exact hd), if_pos hd.symm]
          rfl
        · rw [List.find?_cons_of_neg _ (by simp only [decide_eq_true_eq]; exact hd),
            if_neg (fun h => hd h.symm)]
          have he : e = max a (max b (max c (max d e))) := by omega
          rw [List.find?_cons_of_pos _ (by simp only [decide_eq_true_eq]; exact he)]
          rfl

lemma fuzzy_strategies_spec (fz : Fuzz) (kc mc : String) (θ : ℚ) :
    fuzzy_strategies fz kc mc θ =
      ⟨specDecision ⟨fz.part_ratio kc mc, fz.token_sort_ratio kc mc,
          fz.token_set_ratio kc mc, fz.wratio kc mc, fz.ratio kc mc⟩ θ,
        ((specBestScore ⟨fz.part_ratio kc mc, fz.token_sort_ratio kc mc,
          fz.token_set_ratio kc mc, fz.wratio kc mc, fz.ratio kc mc⟩ : Nat) : ℚ),
        specAttribution ⟨fz.part_ratio kc mc, fz.token_sort_ratio kc mc,
          fz.token_set_ratio kc mc, fz.wratio kc mc, fz.ratio kc mc⟩⟩ := by
  unfold fuzzy_strategies
  simp only [MatchResult.mk.injEq]
  refine ⟨decision_eq _ _ _ _ _ _, ?_, attribution_eq _ _ _ _ _⟩
  rw [specBestScore_eq]

lemma check_eq_fuzzy (fz : Fuzz) (keyword text : String) (θ : ℚ)
    (h : fuzzy_stage_reached keyword text) :
    check_keyword_match fz keyword text θ =
      fuzzy_strategies fz (keyword_clean_of keyword) (clean_text text) θ := by
  simp only [fuzzy_stage_reached, keyword_words_of, words_found_of, word_pct_of,
    keyword_clean_of] at h
  obtain ⟨h1, h2, h3, h4⟩ := h
  unfold check_keyword_match keyword_clean_of
  rw [if_neg h1]
  simp only [h3, Bool.false_eq_true, if_false, if_neg h2]
  by_cases hlen : 1 < (pySplit (pyStrip (pyLower keyword))).length
  · obtain ⟨hne, hnp⟩ := h4 hlen
    rw [if_pos hlen, if_neg hne, if_neg hnp]
  · rw [if_neg hlen]

lemma specDecision_clamp (s : StrategyScores) (θ : ℚ) :
    specDecision s θ = specDecision s (clampThreshold θ) := by
  by_cases hM : 50 ≤ specBestScore s
  · simp only [specDecision, decide_eq_true hM, Bool.or_true]
  · have key : (θ ≤ (specBestScore s : ℚ)) ↔ (clampThreshold θ ≤ (specBestScore s : ℚ)) := by
      unfold clampThreshold
      constructor
      · intro h'
        exact le_trans (min_le_right _ _) (max_le (Nat.cast_nonneg _) h')
      · intro h'
        by_contra hn
        push_neg at hn
        have hlt : ((specBestScore s : ℚ)) < min 100 (max 0 θ) := by
          refine lt_min ?_ (lt_of_lt_of_le hn (le_max_right 0 θ))
          have : specBestScore s < 50 := by omega
          calc ((specBestScore s : ℚ)) < 50 := by exact_mod_cast this
            _ ≤ 100 := by norm_num
        linarith
    simp only [specDecision]
    rw [show decide (θ ≤ ((specBestScore s : Nat) : ℚ))
        = decide (clampThreshold θ ≤ ((specBestScore s : Nat) : ℚ)) from by
      rcases Classical.em (θ ≤ ((specBestScore s : Nat) : ℚ)) with h | h
      · rw [decide_eq_true h, decide_eq_true (key.mp h)]
      · rw [decide_eq_false h, decide_eq_false (fun hk => h (key.mpr hk))]]

lemma fuzzy_clamp (fz : Fuzz) (kc mc : String) (θ : ℚ) :
    fuzzy_strategies fz kc mc θ = fuzzy_strategies fz kc mc (clampThreshold θ) := by
  rw [fuzzy_strategies_spec, fuzzy_strategies_spec, specDecision_clamp]

lemma fuzzy_nonmatch_lt_50 (fz : Fuzz) (kc mc : String) (θ : ℚ)
    (h : (fuzzy_strategies fz kc mc θ).is_match = false) :
    (fuzzy_strategies fz kc mc θ).best_score < 50 := by
  rw [fuzzy_strategies_spec] at h ⊢
  simp only [specDecision, Bool.or_eq_false_iff, decide_eq_false_iff_not] at h
  have h50 := h.2
  have : specBestScore ⟨fz.part_ratio kc mc, fz.token_sort_ratio kc mc,
      fz.token_set_ratio kc mc, fz.wratio kc mc, fz.ratio kc mc⟩ < 50 := by omega
  show ((specBestScore ⟨fz.part_ratio kc mc, fz.token_sort_ratio kc mc,
      fz.token_set_ratio kc mc, fz.wratio kc mc, fz.ratio kc mc⟩ : Nat) : ℚ) < 50
  exact_mod_cast this

lemma subWordGo_of_no_occ (w : List Char) :
    ∀ (fuel : Nat) (prev : Option Char) (s : List Char),
      occWordGo w fuel prev s = false → subWordGo w fuel prev s = s := by
  intro fuel
  induction fuel with
  | zero => intro prev s _; rfl
  | succ n ih =>
    intro prev s h
    cases s with
    | nil => rfl
    | cons c rest =>
      simp only [occWordGo, Bool.or_eq_false_iff] at h
      simp only [subWordGo, h.1, Bool.false_eq_true, if_false]
      rw [ih (some c) rest h.2]

lemma subWord_of_no_occ (w s : String) (h : hasWordOcc w s = false) :
    subWord w s = s := by
  unfold subWord
  rw [subWordGo_of_no_occ w.data _ none s.data h]


lemma check_empty_case (fz : Fuzz) (keyword text : String) (θ : ℚ)
    (h : text = "" ∨ clean_text text = "") :
    check_keyword_match fz keyword text θ = ⟨false, 0, none⟩ := by
  unfold check_keyword_match
  by_cases ht : text = ""
  · rw [if_pos ht]
  · rcases h with h | h
    · exact absurd h ht
    · rw [if_neg ht, if_pos h]

lemma check_exact_case (fz : Fuzz) (keyword text : String) (θ : ℚ)
    (h1 : text ≠ "") (h2 : clean_text text ≠ "")
    (h3 : pySubstr (keyword_clean_of keyword) (clean_text text) = true) :
    check_keyword_match fz keyword text θ = ⟨true, 100, some "exact_match"⟩ := by
  unfold check_keyword_match keyword_clean_of at *
  rw [if_neg h1]
  simp only [if_neg h2, h3, if_true]

lemma check_all_words_case (fz : Fuzz) (keyword text : String) (θ : ℚ)
    (h1 : text ≠ "") (h2 : clean_text text ≠ "")
    (h3 : pySubstr (keyword_clean_of keyword) (clean_text text) = false)
    (h4 : 1 < (keyword_words_of keyword).length)
    (h5 : words_found_of keyword text = (keyword_words_of keyword).length) :
    check_keyword_match fz keyword text θ = ⟨true, 95, some "all_words_match"⟩ := by
  simp only [keyword_words_of, words_found_of, keyword_clean_of] at *
  unfold check_keyword_match
  rw [if_neg h1]
  simp only [h3, Bool.false_eq_true, if_false, if_neg h2, if_pos h4, if_pos h5]

lemma check_partial_words_case (fz : Fuzz) (keyword text : String) (θ : ℚ)
    (h1 : text ≠ "") (h2 : clean_text text ≠ "")
    (h3 : pySubstr (keyword_clean_of keyword) (clean_text text) = false)
    (h4 : 1 < (keyword_words_of keyword).length)
    (h5 : words_found_of keyword text ≠ (keyword_words_of keyword).length)
    (h6 : 0 < words_found_of keyword text ∧ 70 ≤ word_pct_of keyword text) :
    check_keyword_match fz keyword text θ =
      ⟨true, word_pct_of keyword text, some "partial_words_match"⟩ := by
  simp only [keyword_words_of, words_found_of, keyword_clean_of, word_pct_of] at *
  unfold check_keyword_match
  rw [if_neg h1]
  simp only [h3, Bool.false_eq_true, if_false, if_neg h2, if_pos h4, if_neg h5, if_pos h6]

lemma check_fuzzy_spec (fz : Fuzz) (keyword text : String) (θ : ℚ)
    (h : fuzzy_stage_reached keyword text) :
    check_keyword_match fz keyword text θ =
      ⟨specDecision (scores_of fz keyword text) θ,
       ((specBestScore (scores_of fz keyword text) : Nat) : ℚ),
       specAttribution (scores_of fz keyword text)⟩ := by
  rw [check_eq_fuzzy fz keyword text θ h, fuzzy_strategies_spec]
  rfl

/-- C1 (amended): for every backend, query, text and threshold, if the text
and its noise-cleaned form are non-empty and the cleaned query occurs as a
substring of the noise-cleaned text, the scorer returns
`{true, 100, exact_match}` regardless of the threshold. -/
theorem C1_exact_substring_on_cleaned_text (fz : Fuzz) (keyword text : String)
    (threshold : ℚ) (h1 : text ≠ "") (h2 : clean_text text ≠ "")
    (h3 : pySubstr (keyword_clean_of keyword) (clean_text text) = true) :
    check_keyword_match fz keyword text threshold = ⟨true, 100, some "exact_match"⟩ :=
  check_exact_case fz keyword text threshold h1 h2 h3

/-- C1 witness: the spec example query "news" against "Breaking News Today"
is an exact-substring match at any threshold, here 0. -/
theorem C1_witness :
    check_keyword_match fzZero "news" "Breaking News Today" 0 =
      ⟨true, 100, some "exact_match"⟩ :=
  C1_exact_substring_on_cleaned_text fzZero "news" "Breaking News Today" 0
    (by decide) (by decide) (by decide)

/-- C1 counterexample: "mp4" is a substring of the text "mp4", yet the
scorer returns no match with score 0, because noise cleaning erases the
whole text before the substring test. -/
theorem C1_counterexample :
    pySubstr "mp4" "mp4" = true ∧
    check_keyword_match fzZero "mp4" "mp4" 70 = ⟨false, 0, none⟩ := by
  constructor
  · decide
  · decide

/-- C4: the code performs no empty-query validation; an empty or
whitespace-only query is treated as a universal exact-substring match
(score 100) instead of an invalid-query failure. -/
theorem C4_empty_query_matches_everything :
    check_keyword_match fzZero "" "hello" 70 = ⟨true, 100, some "exact_match"⟩ ∧
    check_keyword_match fzZero "   " "hello" 70 = ⟨true, 100, some "exact_match"⟩ := by
  constructor
  · decide
  · decide

/-- C8: for every backend, non-empty query and threshold, the scorer
returns `{false, 0, none}` on the empty text, and likewise on any text
whose noise-cleaned normalization is empty; the result does not depend on
the fuzzy backend, so no similarity strategy is consulted. -/
theorem C8_empty_text_never_matches (fz : Fuzz) (keyword : String) (threshold : ℚ)
    (hq : keyword ≠ "") :
    check_keyword_match fz keyword "" threshold = ⟨false, 0, none⟩ ∧
    (∀ text : String, clean_text text = "" →
      check_keyword_match fz keyword text threshold = ⟨false, 0, none⟩) :=
  ⟨check_empty_case fz keyword "" threshold (Or.inl rfl),
   fun text hc => check_empty_case fz keyword text threshold (Or.inr hc)⟩

/-- C8 witness: query "news" against the text "mp4", which cleans to the
empty string. -/
theorem C8_witness :
    check_keyword_match fzZero "news" "mp4" 70 = ⟨false, 0, none⟩ :=
  (C8_empty_text_never_matches fzZero "news" 70 (by decide)).2 "mp4" (by decide)

/-- C2: whenever a query/text pair reaches the fuzzy stage (no exact
substring and no multi-word short-circuit), the scorer's verdict is the
disjunction of the spec's five priority rules, its score is the maximum of
the five strategy scores, and its method is attributed to the first
strategy (in the order partial_ratio, token_sort_ratio, token_set_ratio,
WRatio, ratio) achieving that maximum. -/
theorem C2_step3_contract (fz : Fuzz) (keyword text : String) (threshold : ℚ)
    (h : fuzzy_stage_reached keyword text) :
    check_keyword_match fz keyword text threshold =
      ⟨specDecision (scores_of fz keyword text) threshold,
       ((specBestScore (scores_of fz keyword text) : Nat) : ℚ),
       specAttribution (scores_of fz keyword text)⟩ :=
  check_fuzzy_spec fz keyword text threshold h

/-- C2 witness: the nonsense query "xyzzy" against "Weather Update" reaches
the fuzzy stage, and the scorer output on the all-zero backend agrees with
the spec formula. -/
theorem C2_witness :
    fuzzy_stage_reached "xyzzy" "Weather Update" ∧
    check_keyword_match fzZero "xyzzy" "Weather Update" 70 =
      ⟨specDecision (scores_of fzZero "xyzzy" "Weather Update") 70,
       ((specBestScore (scores_of fzZero "xyzzy" "Weather Update") : Nat) : ℚ),
       specAttribution (scores_of fzZero "xyzzy" "Weather Update")⟩ :=
  ⟨by decide, C2_step3_contract fzZero "xyzzy" "Weather Update" 70 (by decide)⟩

/-- C7: for a pair that reaches the fuzzy stage and on which every
threshold-independent rule fails (partial_ratio below 50, token ratios
below 60, WRatio below 60, best score below 50), the verdict is exactly the
threshold comparison: it is a match iff the threshold is at most the best
score, so raising the threshold strictly above the best score yields no
match and lowering it to or below the best score yields a match. -/
theorem C7_threshold_sensitivity (fz : Fuzz) (keyword text : String) (threshold : ℚ)
    (h : fuzzy_stage_reached keyword text)
    (ha : ¬ 50 ≤ (scores_of fz keyword text).p_r)
    (hb : ¬ 60 ≤ (scores_of fz keyword text).tso)
    (hc : ¬ 60 ≤ (scores_of fz keyword text).tse)
    (hd : ¬ 60 ≤ (scores_of fz keyword text).wr)
    (he : ¬ 50 ≤ specBestScore (scores_of fz keyword text)) :
    (check_keyword_match fz keyword text threshold).is_match = true ↔
      threshold ≤ ((specBestScore (scores_of fz keyword text) : Nat) : ℚ) := by
  rw [check_fuzzy_spec fz keyword text threshold h]
  show specDecision (scores_of fz keyword text) threshold = true ↔ _
  simp only [specDecision, Bool.or_eq_true, decide_eq_true_eq]
  constructor
  · intro hm
    tauto
  · intro hm
    tauto

/-- C7 witness: on the constant-40 backend, "xyzzy" against "Weather
Update" has best score 40; threshold 30 yields a match and threshold 45
does not. -/
theorem C7_witness :
    (check_keyword_match fzConst40 "xyzzy" "Weather Update" 30).is_match = true ∧
    (check_keyword_match fzConst40 "xyzzy" "Weather Update" 45).is_match = false := by
  constructor
  · exact (C7_threshold_sensitivity fzConst40 "xyzzy" "Weather Update" 30
      (by decide) (by decide) (by decide) (by decide) (by decide) (by decide)).mpr
      (by decide)
  · have hiff := C7_threshold_sensitivity fzConst40 "xyzzy" "Weather Update" 45
      (by decide) (by decide) (by decide) (by decide) (by decide) (by decide)
    rcases Bool.eq_false_or_eq_true
        ((check_keyword_match fzConst40 "xyzzy" "Weather Update" 45).is_match) with ht | hf
    · exact absurd (hiff.mp ht) (by decide)
    · exact hf

/-- C10: whenever the scorer reports no match, the score it returns is
strictly below 50 (equivalently: no threshold, however large, can make a
record whose best strategy score is at least 50 come out as a non-match,
because the final best-score-at-least-50 fallback ignores the threshold). -/
theorem C10_nonmatch_score_below_50 (fz : Fuzz) (keyword text : String) (threshold : ℚ)
    (h : (check_keyword_match fz keyword text threshold).is_match = false) :
    (check_keyword_match fz keyword text threshold).best_score < 50 := by
  by_cases h1 : text = ""
  · rw [check_empty_case fz keyword text threshold (Or.inl h1)]
    norm_num
  by_cases h2 : clean_text text = ""
  · rw [check_empty_case fz keyword text threshold (Or.inr h2)]
    norm_num
  rcases Bool.eq_false_or_eq_true
      (pySubstr (keyword_clean_of keyword) (clean_text text)) with h3 | h3
  · rw [check_exact_case fz keyword text threshold h1 h2 h3] at h
    simp at h
  · by_cases h4 : 1 < (keyword_words_of keyword).length
    · by_cases h5 : words_found_of keyword text = (keyword_words_of keyword).length
      · rw [check_all_words_case fz keyword text threshold h1 h2 h3 h4 h5] at h
        simp at h
      · by_cases h6 : 0 < words_found_of keyword text ∧ 70 ≤ word_pct_of keyword text
        · rw [check_partial_words_case fz keyword text threshold h1 h2 h3 h4 h5 h6] at h
          simp at h
        · have hr : fuzzy_stage_reached keyword text := ⟨h1, h2, h3, fun _ => ⟨h5, h6⟩⟩
          rw [check_eq_fuzzy fz keyword text threshold hr] at h ⊢
          exact fuzzy_nonmatch_lt_50 _ _ _ _ h
    · have hr : fuzzy_stage_reached keyword text := ⟨h1, h2, h3, fun hl => absurd hl h4⟩
      rw [check_eq_fuzzy fz keyword text threshold hr] at h ⊢
      exact fuzzy_nonmatch_lt_50 _ _ _ _ h

/-- C10 witness: the all-zero backend on "xyzzy" against "Weather Update"
reports no match, and the theorem bounds the returned score below 50. -/
theorem C10_witness :
    (check_keyword_match fzZero "xyzzy" "Weather Update" 70).is_match = false ∧
    (check_keyword_match fzZero "xyzzy" "Weather Update" 70).best_score < 50 :=
  ⟨by decide, C10_nonmatch_score_below_50 fzZero "xyzzy" "Weather Update" 70 (by decide)⟩

/-- C3 (amended): for a query of more than one word that is not itself a
substring of the cleaned text (with text and cleaned text non-empty): if
every query word occurs in the cleaned text the scorer returns
`{true, 95, all_words_match}`; otherwise, if the percentage of query words
found is at least 70, it returns that percentage as the score with
`partial_words_match`. -/
theorem C3_multiword_contract (fz : Fuzz) (keyword text : String) (threshold : ℚ)
    (h1 : text ≠ "") (h2 : clean_text text ≠ "")
    (h3 : pySubstr (keyword_clean_of keyword) (clean_text text) = false)
    (h4 : 1 < (keyword_words_of keyword).length) :
    ((∀ w ∈ keyword_words_of keyword, pySubstr w (clean_text text) = true) →
      check_keyword_match fz keyword text threshold = ⟨true, 95, some "all_words_match"⟩) ∧
    ((¬ ∀ w ∈ keyword_words_of keyword, pySubstr w (clean_text text) = true) →
      70 ≤ word_pct_of keyword text →
      check_keyword_match fz keyword text threshold =
        ⟨true, word_pct_of keyword text, some "partial_words_match"⟩) := by
  constructor
  · intro hall
    have h5 : words_found_of keyword text = (keyword_words_of keyword).length := by
      unfold words_found_of
      rw [List.filter_eq_self.mpr hall]
    exact check_all_words_case fz keyword text threshold h1 h2 h3 h4 h5
  · intro hnall hpct
    have h5 : words_found_of keyword text ≠ (keyword_words_of keyword).length := by
      intro he
      apply hnall
      have hfe : (keyword_words_of keyword).filter
          (fun w => pySubstr w (clean_text text)) = keyword_words_of keyword :=
        List.Sublist.eq_of_length (List.filter_sublist _) he
      exact List.filter_eq_self.mp hfe
    have hpos : 0 < words_found_of keyword text := by
      rcases Nat.eq_zero_or_pos (words_found_of keyword text) with h0 | h0
      · exfalso
        unfold word_pct_of at hpct
        rw [h0] at hpct
        norm_num at hpct
      · exact h0
    exact check_partial_words_case fz keyword text threshold h1 h2 h3 h4 h5 ⟨hpos, hpct⟩

/-- C3 witness: the spec example "election results" against "results of the
election": both words occur, not contiguously, giving the all-words
verdict with score 95. -/
theorem C3_witness :
    check_keyword_match fzZero "election results" "results of the election" 70 =
      ⟨true, 95, some "all_words_match"⟩ :=
  (C3_multiword_contract fzZero "election results" "results of the election" 70
    (by decide) (by decide) (by decide) (by decide)).1 (by decide)

/-- C3 counterexample: for the two-word query "breaking news" against the
text "breaking news", every query word appears in the text, yet the scorer
returns the exact-substring verdict `{true, 100, exact_match}`, not
`{true, 95, all_words_match}` as the claim states. -/
theorem C3_counterexample :
    1 < (keyword_words_of "breaking news").length ∧
    (∀ w ∈ keyword_words_of "breaking news", pySubstr w "breaking news" = true) ∧
    check_keyword_match fzZero "breaking news" "breaking news" 70 =
      ⟨true, 100, some "exact_match"⟩ ∧
    check_keyword_match fzZero "breaking news" "breaking news" 70 ≠
      ⟨true, 95, some "all_words_match"⟩ :=
  ⟨by decide, by decide, by decide, by decide⟩

/-- C5: for every threshold (inside or outside [0,100]) the scorer returns
exactly what it returns on the threshold clamped into [0,100]: an
out-of-range threshold is absorbed without failure, and scoring behaves as
if the clamped value had been supplied. -/
theorem C5_threshold_clamp_equivalence (fz : Fuzz) (keyword text : String)
    (threshold : ℚ) :
    check_keyword_match fz keyword text threshold =
      check_keyword_match fz keyword text (clampThreshold threshold) := by
  by_cases h1 : text = ""
  · rw [check_empty_case fz keyword text _ (Or.inl h1),
      check_empty_case fz keyword text _ (Or.inl h1)]
  by_cases h2 : clean_text text = ""
  · rw [check_empty_case fz keyword text _ (Or.inr h2),
      check_empty_case fz keyword text _ (Or.inr h2)]
  rcases Bool.eq_false_or_eq_true
      (pySubstr (keyword_clean_of keyword) (clean_text text)) with h3 | h3
  · rw [check_exact_case fz keyword text _ h1 h2 h3,
      check_exact_case fz keyword text _ h1 h2 h3]
  · by_cases h4 : 1 < (keyword_words_of keyword).length
    · by_cases h5 : words_found_of keyword text = (keyword_words_of keyword).length
      · rw [check_all_words_case fz keyword text _ h1 h2 h3 h4 h5,
          check_all_words_case fz keyword text _ h1 h2 h3 h4 h5]
      · by_cases h6 : 0 < words_found_of keyword text ∧ 70 ≤ word_pct_of keyword text
        · rw [check_partial_words_case fz keyword text _ h1 h2 h3 h4 h5 h6,
            check_partial_words_case fz keyword text _ h1 h2 h3 h4 h5 h6]
        · have hr : fuzzy_stage_reached keyword text := ⟨h1, h2, h3, fun _ => ⟨h5, h6⟩⟩
          rw [check_eq_fuzzy fz keyword text _ hr, check_eq_fuzzy fz keyword text _ hr]
          exact fuzzy_clamp fz _ _ threshold
    · have hr : fuzzy_stage_reached keyword text := ⟨h1, h2, h3, fun hl => absurd hl h4⟩
      rw [check_eq_fuzzy fz keyword text _ hr, check_eq_fuzzy fz keyword text _ hr]
      exact fuzzy_clamp fz _ _ threshold

/-- C6 (amended): noise removal strips only boundary-delimited whole-word
occurrences of a pattern: a string with no whole-word occurrence of the
pattern is left unchanged, and in particular cleaning "The movie
collection" preserves the query fragment "mov" inside "movie" (whole-word
occurrences of noise tokens, even ones equal to the query, are still
deleted). -/
theorem C6_whole_word_noise_stripping :
    (∀ w s : String, hasWordOcc w s = false → subWord w s = s) ∧
    clean_text "The movie collection" = "the movie collection" ∧
    pySubstr "mov" (clean_text "The movie collection") = true :=
  ⟨fun w s h => subWord_of_no_occ w s h, by decide, by decide⟩

/-- C6 witness: "mov" has no whole-word occurrence in "the movie
collection", so the skip-word pass leaves the string unchanged. -/
theorem C6_witness :
    hasWordOcc "mov" "the movie collection" = false ∧
    subWord "mov" "the movie collection" = "the movie collection" :=
  ⟨by decide,
   C6_whole_word_noise_stripping.1 "mov" "the movie collection" (by decide)⟩

/-- C6 counterexample: with query "mov" and text "a mov file", the "mov"
that is part of (equal to) the query is a whole-word noise token and is
deleted by normalization, refuting "never deletes a substring of the text
that is part of the query". -/
theorem C6_counterexample :
    pySubstr "mov" "a mov file" = true ∧
    clean_text "a mov file" = "a file" ∧
    pySubstr "mov" (clean_text "a mov file") = false :=
  ⟨by decide, by decide, by decide⟩

/-- C9: the aggregator's summary percentage is matched/total*100 whenever
at least one card was checked, and 0 when no card was checked (the guarded
division is never taken with a zero denominator). -/
theorem C9_match_percentage (fz : Fuzz) (keyword : String) (threshold : ℚ)
    (cards : List CardMetadata) :
    (0 < (verify_core fz keyword threshold cards).total →
      (verify_core fz keyword threshold cards).match_percentage =
        ((verify_core fz keyword threshold cards).matched : ℚ) /
          ((verify_core fz keyword threshold cards).total : ℚ) * 100) ∧
    ((verify_core fz keyword threshold cards).total = 0 →
      (verify_core fz keyword threshold cards).match_percentage = 0) := by
  constructor
  · intro h
    simp only [verify_core] at h ⊢
    rw [if_pos h]
  · intro h
    simp only [verify_core] at h ⊢
    rw [h]
    norm_num

/-- C9 witness: a single card titled "Breaking News Today" checked against
"news": one card checked, one matched, percentage 1/1*100. -/
theorem C9_witness :
    0 < (verify_core fzZero "news" 70 [⟨"Breaking News Today", "", "", "", "", "", ""⟩]).total ∧
    (verify_core fzZero "news" 70 [⟨"Breaking News Today", "", "", "", "", "", ""⟩]).match_percentage =
      ((verify_core fzZero "news" 70 [⟨"Breaking News Today", "", "", "", "", "", ""⟩]).matched : ℚ) /
        ((verify_core fzZero "news" 70 [⟨"Breaking News Today", "", "", "", "", "", ""⟩]).total : ℚ) * 100 :=
  ⟨by decide,
   (C9_match_percentage fzZero "news" 70 [⟨"Breaking News Today", "", "", "", "", "", ""⟩]).1
     (by decide)⟩

end NIMAR
